import Mathlib

/-!
Verification of the sales-bonus aggregation pipeline (`src/main.js`).

The JavaScript source is shallowly embedded: JS numbers become `ℚ`,
JS arrays become `List`, the two plain-object indexes (seller index,
product index) become last-occurrence lookups over lists, and the
plain object used as an insertion-ordered SKU→quantity map becomes an
association list updated in place / appended at the end.  Dynamic
shapes that the validator inspects (absent value, non-array value,
non-function option) are embedded as explicit sum types.
-/

/-- A JS value read from a named collection slot: absent (`undefined`),
present but not an array, or an array of typed elements. -/
inductive JsField (α : Type) : Type
  | absent : JsField α
  | notArray : JsField α
  | array (xs : List α) : JsField α
deriving DecidableEq

/-- A JS value read from an options slot that should be a function:
falsy/absent, truthy non-function, or an actual function. -/
inductive MaybeFn (α : Type) : Type
  | absent : MaybeFn α
  | notAFn : MaybeFn α
  | fn (f : α) : MaybeFn α

/-- Input seller record. -/
structure Seller where
  id : String
  first_name : String
  last_name : String
deriving DecidableEq

/-- Input product record, keyed by SKU. -/
structure Product where
  sku : String
  purchase_price : ℚ
deriving DecidableEq

/-- A line item of a purchase record. -/
structure Item where
  sku : String
  quantity : ℕ
  sale_price : ℚ
  discount : ℚ
deriving DecidableEq

/-- An input purchase record (receipt). -/
structure PurchaseRecord where
  seller_id : String
  total_amount : ℚ
  items : List Item
deriving DecidableEq

/-- The input data bundle as the validator sees it: each collection slot
may be absent, a non-array, or an array.  Customer contents are never
read by the pipeline, so customers are modelled as an array of `Unit`. -/
structure DataBundle where
  sellers : JsField Seller
  products : JsField Product
  purchase_records : JsField PurchaseRecord
  customers : JsField Unit

/-- The per-seller accumulator built during the fold
(`sellerStats` element in the source). -/
structure SellerStat where
  id : String
  name : String
  revenue : ℚ
  profit : ℚ
  sales_count : ℕ
  products_sold : List (String × ℕ)
deriving DecidableEq

/-- Type of the injected revenue policy: `(item, product-or-absent) → number`. -/
def RevenueFn : Type := Item → Option Product → ℚ

/-- Type of the injected bonus policy: `(index, total, seller) → number`. -/
def BonusFn : Type := ℕ → ℕ → SellerStat → ℚ

/-- The options bundle: the two policy-function slots. -/
structure OptionsBundle where
  calculateRevenue : MaybeFn RevenueFn
  calculateBonus : MaybeFn BonusFn

/-- A seller accumulator after ranking: the stat plus the assigned bonus
and the computed top-products list. -/
structure RankedSeller where
  stat : SellerStat
  bonus : ℚ
  top_products : List (String × ℕ)
deriving DecidableEq

/-- One entry of the returned report. -/
structure ReportEntry where
  seller_id : String
  name : String
  revenue : ℚ
  profit : ℚ
  sales_count : ℕ
  top_products : List (String × ℕ)
  bonus : ℚ
deriving DecidableEq

/-- `+x.toFixed(2)`: round to 2 decimal places. -/
def round2 (x : ℚ) : ℚ := ((round (x * 100) : ℤ) : ℚ) / 100

/-- `calculateSimpleRevenue` from `src/main.js`: sale price × quantity ×
(1 − discount∕100), no rounding. -/
def calculateSimpleRevenue (purchase : Item) (_product : Option Product) : ℚ :=
  let discountCoefficient : ℚ := 1 - purchase.discount / 100
  purchase.sale_price * (purchase.quantity : ℚ) * discountCoefficient

/-- `calculateBonusByProfit` from `src/main.js`: 15% at rank 0, 10% at
ranks 1–2, 0 at the last rank, otherwise 5%. -/
def calculateBonusByProfit (index total : ℕ) (seller : SellerStat) : ℚ :=
  let profit := seller.profit
  if index = 0 then profit * (15 / 100)
  else if index = 1 ∨ index = 2 then profit * (10 / 100)
  else if index = total - 1 then 0
  else profit * (5 / 100)

/-- The zero-initialized accumulator built for one input seller. -/
def initStat (s : Seller) : SellerStat :=
  { id := s.id
    name := s.first_name ++ " " ++ s.last_name
    revenue := 0
    profit := 0
    sales_count := 0
    products_sold := [] }

/-- `productIndex[sku]`: the index is built by successive assignment, so
the last product with a given SKU wins. -/
def lookupProduct (ps : List Product) (sku : String) : Option Product :=
  (ps.filter (fun p => decide (p.sku = sku))).getLast?

/-- `products_sold[sku] += q`, initializing to 0 on first encounter: the
first occurrence of the key is updated in place, a new key is appended
(JS object insertion order). -/
def addQty (sku : String) (q : ℕ) : List (String × ℕ) → List (String × ℕ)
  | [] => [(sku, q)]
  | p :: rest => if p.1 = sku then (p.1, p.2 + q) :: rest else p :: addQty sku q rest

/-- The quantity recorded for a SKU in the per-seller map (0 if absent). -/
def qtyOf (sku : String) : List (String × ℕ) → ℕ
  | [] => 0
  | p :: rest => if p.1 = sku then p.2 else qtyOf sku rest

/-- Processing of one line item inside the record fold. -/
def processItem (f : RevenueFn) (ps : List Product) (stat : SellerStat) (item : Item) :
    SellerStat :=
  let product := lookupProduct ps item.sku
  let cost : ℚ :=
    match product with
    | some p => p.purchase_price * (item.quantity : ℚ)
    | none => 0
  let revenue := f item product
  { stat with
    revenue := stat.revenue + revenue
    profit := stat.profit + (revenue - cost)
    products_sold := addQty item.sku item.quantity stat.products_sold }

/-- Processing of one purchase record against its owning accumulator:
bump the sales count, then fold the items. -/
def processRecord (f : RevenueFn) (ps : List Product) (r : PurchaseRecord)
    (stat : SellerStat) : SellerStat :=
  r.items.foldl (processItem f ps) { stat with sales_count := stat.sales_count + 1 }

/-- Index of the last occurrence of `id` in a list of identifiers
(`sellerIndex` is built by successive assignment, so later sellers with
the same id overwrite earlier ones). -/
def lastIdxOf (id : String) : List String → Option ℕ
  | [] => none
  | x :: rest =>
    match lastIdxOf id rest with
    | some j => some (j + 1)
    | none => if x = id then some 0 else none

/-- Apply `f` to the accumulator that `sellerIndex[id]` designates (the
last stat with that id); leave the list unchanged when the id is unknown. -/
def applyAtLast (id : String) (f : SellerStat → SellerStat) (stats : List SellerStat) :
    List SellerStat :=
  match lastIdxOf id (stats.map (fun s => s.id)) with
  | none => stats
  | some j =>
    match stats[j]? with
    | some s => stats.set j (f s)
    | none => stats

/-- The fold over all purchase records (`data.purchase_records.forEach`). -/
def foldRecords (f : RevenueFn) (ps : List Product) (stats : List SellerStat)
    (rs : List PurchaseRecord) : List SellerStat :=
  rs.foldl (fun st r => applyAtLast r.seller_id (processRecord f ps r) st) stats

/-- Stable insertion into a list sorted descending by `key`: the new
element goes before the first element whose key is not greater. -/
def insertDescBy {α β : Type} [LinearOrder β] (key : α → β) (x : α) :
    List α → List α
  | [] => [x]
  | y :: rest => if key x < key y then y :: insertDescBy key x rest else x :: y :: rest

/-- Stable sort, descending by `key` (the semantics of the ES2019-stable
`Array.prototype.sort` with comparator `(a, b) => key(b) - key(a)`). -/
def sortDescBy {α β : Type} [LinearOrder β] (key : α → β) (l : List α) : List α :=
  l.foldr (insertDescBy key) []

/-- `sellerStats.sort((a, b) => b.profit - a.profit)`. -/
def sortByProfitDesc (l : List SellerStat) : List SellerStat :=
  sortDescBy (fun s => s.profit) l

/-- `Object.entries(products_sold).map(...).sort((a, b) => b.quantity - a.quantity).slice(0, 10)`. -/
def topProducts (m : List (String × ℕ)) : List (String × ℕ) :=
  (sortDescBy (fun p => p.2) m).take 10

/-- Ranking stage: walk the sorted stats assigning the 0-based index,
computing the bonus and the top-products list for each. -/
def assignBonus (g : BonusFn) (total : ℕ) : ℕ → List SellerStat → List RankedSeller
  | _, [] => []
  | i, s :: rest =>
    { stat := s, bonus := g i total s, top_products := topProducts s.products_sold }
      :: assignBonus g total (i + 1) rest

/-- Final projection of one ranked seller into a report entry, rounding
revenue, profit and bonus to 2 decimals. -/
def projectSeller (r : RankedSeller) : ReportEntry :=
  { seller_id := r.stat.id
    name := r.stat.name
    revenue := round2 r.stat.revenue
    profit := round2 r.stat.profit
    sales_count := r.stat.sales_count
    top_products := r.top_products
    bonus := round2 r.bonus }

/-- The pipeline run after validation succeeds: build zero stats, fold
the records, sort by profit, assign bonuses, project. -/
def runPipeline (f : RevenueFn) (g : BonusFn) (ss : List Seller) (ps : List Product)
    (rs : List PurchaseRecord) : List ReportEntry :=
  let folded := foldRecords f ps (ss.map initStat) rs
  let sorted := sortByProfitDesc folded
  (assignBonus g sorted.length 0 sorted).map projectSeller

/-- Error message of the data-shape check. -/
def invalidDataMsg : String :=
  "Некорректные входные данные: данные должны содержать непустые массивы sellers, products, purchase_records и customers"

/-- Error message when options is absent or not an object. -/
def optionsObjectMsg : String := "Опции должны быть объектом"

/-- Error message when either policy slot is falsy. -/
def optionsMissingMsg : String :=
  "Опции должны содержать функции calculateRevenue и calculateBonus"

/-- Error message when a policy slot is truthy but not a function. -/
def optionsTypeMsg : String :=
  "calculateRevenue и calculateBonus должны быть функциями"

/-- `analyzeSalesData(data, options)` from `src/main.js`: validation in
source order, then the pipeline.  Note the validator requires all four
collections (customers included) to be arrays, and the first three to be
non-empty. -/
def analyzeSalesData (data : Option DataBundle) (options : Option OptionsBundle) :
    Except String (List ReportEntry) :=
  match data with
  | none => Except.error invalidDataMsg
  | some d =>
    match d.sellers, d.products, d.purchase_records, d.customers with
    | JsField.array ss, JsField.array ps, JsField.array rs, JsField.array _ =>
      if ss.length = 0 ∨ ps.length = 0 ∨ rs.length = 0 then Except.error invalidDataMsg
      else
        match options with
        | none => Except.error optionsObjectMsg
        | some o =>
          match o.calculateRevenue, o.calculateBonus with
          | MaybeFn.absent, _ => Except.error optionsMissingMsg
          | _, MaybeFn.absent => Except.error optionsMissingMsg
          | MaybeFn.notAFn, _ => Except.error optionsTypeMsg
          | _, MaybeFn.notAFn => Except.error optionsTypeMsg
          | MaybeFn.fn f, MaybeFn.fn g => Except.ok (runPipeline f g ss ps rs)
    | _, _, _, _ => Except.error invalidDataMsg

/-- A data bundle whose four slots are all arrays. -/
def mkData (ss : List Seller) (ps : List Product) (rs : List PurchaseRecord) : DataBundle :=
  { sellers := JsField.array ss
    products := JsField.array ps
    purchase_records := JsField.array rs
    customers := JsField.array [] }

/-- An options bundle carrying two actual policy functions. -/
def mkOpts (f : RevenueFn) (g : BonusFn) : OptionsBundle :=
  { calculateRevenue := MaybeFn.fn f, calculateBonus := MaybeFn.fn g }

/-- Total quantity of a given SKU across a list of items. -/
def sumQty (sku : String) (items : List Item) : ℕ :=
  ((items.filter (fun it => decide (it.sku = sku))).map (fun it => it.quantity)).sum

/-- First-encounter order of the SKUs of a list of items. -/
def encounterOrder (skus : List String) (items : List Item) : List String :=
  items.foldl (fun ks it => if it.sku ∈ ks then ks else ks ++ [it.sku]) skus

/-- Concatenation of the item lists of a list of purchase records, in
record order. -/
def itemsOf (recs : List PurchaseRecord) : List Item :=
  recs.foldr (fun r acc => r.items ++ acc) []

/-- Sample seller for concrete witnesses. -/
def seller0 : Seller := { id := "s1", first_name := "Ann", last_name := "Lee" }

/-- Sample product for concrete witnesses. -/
def product0 : Product := { sku := "p1", purchase_price := 40 }

/-- Sample item (the §8 example of the spec). -/
def item0 : Item := { sku := "p1", quantity := 2, sale_price := 100, discount := 10 }

/-- Sample purchase record for concrete witnesses. -/
def record0 : PurchaseRecord := { seller_id := "s1", total_amount := 180, items := [item0] }

/-- Default options bundle used by the concrete examples. -/
def defaultOpts : OptionsBundle := mkOpts calculateSimpleRevenue calculateBonusByProfit

/-- A data bundle that satisfies every condition C1 lists (the three
required collections are non-empty arrays) but whose customers slot is
absent. -/
def dataNoCustomers : DataBundle :=
  { sellers := JsField.array [seller0]
    products := JsField.array [product0]
    purchase_records := JsField.array [record0]
    customers := JsField.absent }

/-- The expected report entry of the §8 example. -/
def reportEntry0 : ReportEntry :=
  { seller_id := "s1"
    name := "Ann Lee"
    revenue := 180
    profit := 100
    sales_count := 1
    top_products := [("p1", 2)]
    bonus := 15 }

/-- A second sample seller with a distinct identifier and no attributed
purchase records. -/
def seller1 : Seller := { id := "s2", first_name := "Bea", last_name := "Cox" }

/-- A sample seller sharing the identifier of `seller0` (a duplicate). -/
def seller0b : Seller := { id := "s1", first_name := "Bob", last_name := "Day" }

/-- A purchase record referencing an unknown seller identifier. -/
def recordUnknown : PurchaseRecord :=
  { seller_id := "zz", total_amount := 5, items := [item0] }

/-- A sample item whose SKU matches no product. -/
def itemUnknown : Item := { sku := "qq", quantity := 3, sale_price := 5, discount := 0 }

/-- Expected zero entry for `seller1` in the two-seller example run. -/
def reportEntry1 : ReportEntry :=
  { seller_id := "s2"
    name := "Bea Cox"
    revenue := 0
    profit := 0
    sales_count := 0
    top_products := []
    bonus := 0 }

/-- Expected top entry of the duplicate-seller example run: the record
is attributed to the later duplicate `seller0b`. -/
def reportEntryDup0 : ReportEntry :=
  { seller_id := "s1"
    name := "Bob Day"
    revenue := 180
    profit := 100
    sales_count := 1
    top_products := [("p1", 2)]
    bonus := 15 }

/-- Expected zero entry of the duplicate-seller example run: the earlier
duplicate `seller0` stays zero-initialized. -/
def reportEntryDup1 : ReportEntry :=
  { seller_id := "s1"
    name := "Ann Lee"
    revenue := 0
    profit := 0
    sales_count := 0
    top_products := []
    bonus := 0 }

/-! ### Basic lemmas about rounding and the stable descending sort -/

theorem round2_zero : round2 0 = 0 := by
  simp [round2]

theorem round2_mono {x y : ℚ} (h : x ≤ y) : round2 x ≤ round2 y := by
  unfold round2
  have h1 : round (x * 100) ≤ round (y * 100) := by
    rw [round_eq, round_eq]
    exact Int.floor_mono (by linarith)
  have h2 : ((round (x * 100) : ℤ) : ℚ) ≤ ((round (y * 100) : ℤ) : ℚ) := by
    exact_mod_cast h1
  linarith

theorem insertDescBy_perm {α β : Type} [LinearOrder β] (key : α → β) (x : α)
    (l : List α) : List.Perm (insertDescBy key x l) (x :: l) := by
  induction l with
  | nil => simp [insertDescBy]
  | cons y rest ih =>
    by_cases hxy : key x < key y
    · have h1 : insertDescBy key x (y :: rest) = y :: insertDescBy key x rest := by
        simp [insertDescBy, hxy]
      rw [h1]
      exact (ih.cons y).trans (List.Perm.swap x y rest)
    · simp [insertDescBy, hxy]

theorem sortDescBy_perm {α β : Type} [LinearOrder β] (key : α → β) (l : List α) :
    List.Perm (sortDescBy key l) l := by
  induction l with
  | nil => exact List.Perm.refl []
  | cons x rest ih => exact (insertDescBy_perm key x (sortDescBy key rest)).trans (ih.cons x)

theorem mem_sortDescBy {α β : Type} [LinearOrder β] {key : α → β} {l : List α} {a : α} :
    a ∈ sortDescBy key l ↔ a ∈ l :=
  (sortDescBy_perm key l).mem_iff

theorem sortDescBy_length {α β : Type} [LinearOrder β] (key : α → β) (l : List α) :
    (sortDescBy key l).length = l.length :=
  (sortDescBy_perm key l).length_eq

theorem insertDescBy_pairwise {α β : Type} [LinearOrder β] {key : α → β} (x : α)
    {l : List α} (h : l.Pairwise (fun a b => key b ≤ key a)) :
    (insertDescBy key x l).Pairwise (fun a b => key b ≤ key a) := by
  induction l with
  | nil => simp [insertDescBy]
  | cons y rest ih =>
    rcases List.pairwise_cons.mp h with ⟨hy, hrest⟩
    by_cases hxy : key x < key y
    · have hmem : ∀ a ∈ insertDescBy key x rest, key a ≤ key y := by
        intro a ha
        have hmem' : a = x ∨ a ∈ rest :=
          List.mem_cons.mp ((insertDescBy_perm key x rest).mem_iff.mp ha)
        rcases hmem' with rfl | hm
        · exact le_of_lt hxy
        · exact hy _ hm
      simpa [insertDescBy, hxy] using List.pairwise_cons.mpr ⟨hmem, ih hrest⟩
    · have hyx : key y ≤ key x := le_of_not_lt hxy
      have hall : ∀ a ∈ y :: rest, key a ≤ key x := by
        intro a ha
        rcases List.mem_cons.mp ha with rfl | hm
        · exact hyx
        · exact le_trans (hy _ hm) hyx
      simpa [insertDescBy, hxy] using List.pairwise_cons.mpr ⟨hall, h⟩

theorem sortDescBy_pairwise {α β : Type} [LinearOrder β] (key : α → β) (l : List α) :
    (sortDescBy key l).Pairwise (fun a b => key b ≤ key a) := by
  induction l with
  | nil => simp [sortDescBy]
  | cons x rest ih => exact insertDescBy_pairwise x ih

theorem insertDescBy_filter_eq {α β : Type} [LinearOrder β] [DecidableEq α]
    (key : α → β) (x : α) (l : List α) {q : β} (hq : key x = q) :
    (insertDescBy key x l).filter (fun a => decide (key a = q))
      = x :: l.filter (fun a => decide (key a = q)) := by
  subst hq
  induction l with
  | nil => simp [insertDescBy]
  | cons y rest ih =>
    by_cases hxy : key x < key y
    · have hyq : ¬ (key y = key x) := ne_of_gt hxy
      simp [insertDescBy, hxy, List.filter_cons, hyq, ih]
    · simp [insertDescBy, hxy, List.filter_cons]

theorem insertDescBy_filter_ne {α β : Type} [LinearOrder β] [DecidableEq α]
    (key : α → β) (x : α) (l : List α) {q : β} (hq : key x ≠ q) :
    (insertDescBy key x l).filter (fun a => decide (key a = q))
      = l.filter (fun a => decide (key a = q)) := by
  induction l with
  | nil => simp [insertDescBy, hq]
  | cons y rest ih =>
    by_cases hxy : key x < key y
    · simp [insertDescBy, hxy, List.filter_cons, ih]
    · simp [insertDescBy, hxy, List.filter_cons, hq]

theorem sortDescBy_filter {α β : Type} [LinearOrder β] [DecidableEq α]
    (key : α → β) (l : List α) (q : β) :
    (sortDescBy key l).filter (fun a => decide (key a = q))
      = l.filter (fun a => decide (key a = q)) := by
  induction l with
  | nil => rfl
  | cons x rest ih =>
    by_cases hq : key x = q
    · rw [show sortDescBy key (x :: rest) = insertDescBy key x (sortDescBy key rest) from rfl,
        insertDescBy_filter_eq key x _ hq, ih]
      simp [List.filter_cons, hq]
    · rw [show sortDescBy key (x :: rest) = insertDescBy key x (sortDescBy key rest) from rfl,
        insertDescBy_filter_ne key x _ hq, ih]
      simp [List.filter_cons, hq]

theorem pairwise_getElem?_adj {α : Type} {R : α → α → Prop} {l : List α} (h : l.Pairwise R)
    {i : ℕ} {a b : α} (ha : l[i]? = some a) (hb : l[i + 1]? = some b) : R a b := by
  rw [List.pairwise_iff_getElem] at h
  rcases List.getElem?_eq_some_iff.mp ha with ⟨hi, rfl⟩
  rcases List.getElem?_eq_some_iff.mp hb with ⟨hj, rfl⟩
  exact h i (i + 1) hi hj (Nat.lt_succ_self i)

/-! ### Lemmas about the seller index and the record fold -/

theorem foldl_processItem_id (f : RevenueFn) (ps : List Product) (items : List Item)
    (stat : SellerStat) : (items.foldl (processItem f ps) stat).id = stat.id := by
  induction items generalizing stat with
  | nil => rfl
  | cons it rest ih => simpa [List.foldl_cons] using ih (processItem f ps stat it)

theorem processRecord_id (f : RevenueFn) (ps : List Product) (r : PurchaseRecord)
    (stat : SellerStat) : (processRecord f ps r stat).id = stat.id :=
  foldl_processItem_id f ps r.items _

theorem lastIdxOf_lt {id : String} {ids : List String} {j : ℕ}
    (h : lastIdxOf id ids = some j) : j < ids.length := by
  induction ids generalizing j with
  | nil => simp [lastIdxOf] at h
  | cons x rest ih =>
    rw [lastIdxOf] at h
    rcases hrest : lastIdxOf id rest with _ | j'
    · rw [hrest] at h
      by_cases hx : x = id
      · simp [hx] at h
        simp [← h]
      · simp [hx] at h
    · rw [hrest] at h
      simp at h
      subst h
      simpa using ih hrest

theorem lastIdxOf_getElem? {id : String} {ids : List String} {j : ℕ}
    (h : lastIdxOf id ids = some j) : ids[j]? = some id := by
  induction ids generalizing j with
  | nil => simp [lastIdxOf] at h
  | cons x rest ih =>
    rw [lastIdxOf] at h
    rcases hrest : lastIdxOf id rest with _ | j'
    · rw [hrest] at h
      by_cases hx : x = id
      · simp [hx] at h
        simp [← h, hx]
      · simp [hx] at h
    · rw [hrest] at h
      simp at h
      subst h
      simpa using ih hrest

theorem lastIdxOf_eq_none {id : String} {ids : List String}
    (h : lastIdxOf id ids = none) : id ∉ ids := by
  induction ids with
  | nil => simp
  | cons x rest ih =>
    rw [lastIdxOf] at h
    rcases hrest : lastIdxOf id rest with _ | j'
    · rw [hrest] at h
      by_cases hx : x = id
      · simp [hx] at h
      · simp [List.mem_cons]
        exact ⟨by simpa using Ne.symm hx, ih hrest⟩
    · rw [hrest] at h
      simp at h

theorem lastIdxOf_ge {id : String} {ids : List String} {j k : ℕ}
    (h : lastIdxOf id ids = some j) (hk : ids[k]? = some id) : k ≤ j := by
  induction ids generalizing j k with
  | nil => simp at hk
  | cons x rest ih =>
    rw [lastIdxOf] at h
    rcases hrest : lastIdxOf id rest with _ | j'
    · rw [hrest] at h
      by_cases hx : x = id
      · simp [hx] at h
        subst h
        cases k with
        | zero => exact le_refl 0
        | succ k' =>
          exfalso
          simp at hk
          exact lastIdxOf_eq_none hrest (List.getElem?_mem hk)
      · simp [hx] at h
    · rw [hrest] at h
      simp at h
      subst h
      cases k with
      | zero => exact Nat.zero_le _
      | succ k' =>
        simp at hk
        exact Nat.succ_le_succ (ih hrest hk)

theorem applyAtLast_eq_none {id : String} {f : SellerStat → SellerStat}
    {stats : List SellerStat}
    (h : lastIdxOf id (stats.map (fun s => s.id)) = none) :
    applyAtLast id f stats = stats := by
  unfold applyAtLast
  rw [h]

theorem applyAtLast_eq_idx {id : String} {f : SellerStat → SellerStat}
    {stats : List SellerStat} {j : ℕ}
    (h : lastIdxOf id (stats.map (fun s => s.id)) = some j) :
    applyAtLast id f stats =
      match stats[j]? with
      | some s => stats.set j (f s)
      | none => stats := by
  unfold applyAtLast
  rw [h]

theorem applyAtLast_length (id : String) (f : SellerStat → SellerStat)
    (stats : List SellerStat) : (applyAtLast id f stats).length = stats.length := by
  rcases h : lastIdxOf id (stats.map (fun s => s.id)) with _ | j
  · rw [applyAtLast_eq_none h]
  · rw [applyAtLast_eq_idx h]
    rcases hg : stats[j]? with _ | s
    · rfl
    · simp

theorem applyAtLast_getElem? (id : String) (f : SellerStat → SellerStat)
    (stats : List SellerStat) (k : ℕ) :
    (applyAtLast id f stats)[k]? =
      if lastIdxOf id (stats.map (fun s => s.id)) = some k
      then stats[k]?.map f
      else stats[k]? := by
  rcases h : lastIdxOf id (stats.map (fun s => s.id)) with _ | j
  · rw [applyAtLast_eq_none h, h]
    simp
  · rw [applyAtLast_eq_idx h, h]
    have hj : j < stats.length := by
      have hlen := lastIdxOf_lt h
      simpa using hlen
    rcases hg : stats[j]? with _ | s
    · rw [List.getElem?_eq_none_iff] at hg
      omega
    · show (stats.set j (f s))[k]? = _
      by_cases hk : j = k
      · subst hk
        simp [List.getElem?_set_self hj, hg]
      · rw [List.getElem?_set_ne hk]
        simp [hk]

theorem applyAtLast_map_id (id : String) (f : SellerStat → SellerStat)
    (stats : List SellerStat) (hf : ∀ s, (f s).id = s.id) :
    (applyAtLast id f stats).map (fun s => s.id) = stats.map (fun s => s.id) := by
  apply List.ext_getElem?
  intro k
  rw [List.getElem?_map, List.getElem?_map, applyAtLast_getElem?]
  by_cases hk : lastIdxOf id (stats.map (fun s => s.id)) = some k
  · rcases hg : stats[k]? with _ | s
    · simp [hk, hg]
    · simp [hk, hg, hf]
  · simp [hk]

theorem foldRecords_map_id (f : RevenueFn) (ps : List Product)
    (stats : List SellerStat) (rs : List PurchaseRecord) :
    (foldRecords f ps stats rs).map (fun s => s.id) = stats.map (fun s => s.id) := by
  induction rs generalizing stats with
  | nil => rfl
  | cons r rest ih =>
    rw [foldRecords, List.foldl_cons, ← foldRecords]
    rw [ih, applyAtLast_map_id]
    intro s
    exact processRecord_id f ps r s

theorem foldRecords_length (f : RevenueFn) (ps : List Product)
    (stats : List SellerStat) (rs : List PurchaseRecord) :
    (foldRecords f ps stats rs).length = stats.length := by
  have h1 := congrArg List.length (foldRecords_map_id f ps stats rs)
  simpa using h1

theorem foldRecords_getElem? (f : RevenueFn) (ps : List Product) (rs : List PurchaseRecord)
    (stats : List SellerStat) (j : ℕ) :
    (foldRecords f ps stats rs)[j]? =
      stats[j]?.map (fun s =>
        (rs.filter (fun r =>
            decide (lastIdxOf r.seller_id (stats.map (fun t => t.id)) = some j))).foldl
          (fun t r => processRecord f ps r t) s) := by
  induction rs generalizing stats with
  | nil =>
    simp [foldRecords]
  | cons r rest ih =>
    rw [foldRecords, List.foldl_cons, ← foldRecords]
    rw [ih]
    rw [applyAtLast_map_id _ _ _ (fun s => processRecord_id f ps r s)]
    rw [applyAtLast_getElem?]
    by_cases hr : lastIdxOf r.seller_id (stats.map (fun t => t.id)) = some j
    · rw [if_pos hr]
      rw [List.filter_cons_of_pos (by simp [hr])]
      simp only [List.foldl_cons, Option.map_map]
      rfl
    · rw [if_neg hr]
      rw [List.filter_cons_of_neg (by simp [hr])]

/-! ### Lemmas about the per-seller SKU quantity map -/

theorem sumQty_cons (sku : String) (it : Item) (rest : List Item) :
    sumQty sku (it :: rest) = (if it.sku = sku then it.quantity else 0) + sumQty sku rest := by
  by_cases h : it.sku = sku <;> simp [sumQty, List.filter_cons, h]

theorem sumQty_append (sku : String) (l1 l2 : List Item) :
    sumQty sku (l1 ++ l2) = sumQty sku l1 + sumQty sku l2 := by
  simp [sumQty, List.filter_append]

theorem qtyOf_addQty_self (sku : String) (q : ℕ) (m : List (String × ℕ)) :
    qtyOf sku (addQty sku q m) = qtyOf sku m + q := by
  induction m with
  | nil => simp [addQty, qtyOf]
  | cons p rest ih =>
    by_cases h : p.1 = sku
    · simp [addQty, h, qtyOf]
    · simp [addQty, h, qtyOf, ih]

theorem qtyOf_addQty_ne (s sku : String) (q : ℕ) (m : List (String × ℕ)) (h : s ≠ sku) :
    qtyOf s (addQty sku q m) = qtyOf s m := by
  induction m with
  | nil => simp [addQty, qtyOf, Ne.symm h]
  | cons p rest ih =>
    by_cases hp : p.1 = sku
    · have e1 : addQty sku q (p :: rest) = (p.1, p.2 + q) :: rest := by
        simp [addQty, hp]
      have hps : ¬ (p.1 = s) := by
        rw [hp]
        exact Ne.symm h
      rw [e1]
      simp [qtyOf, hps]
    · have e1 : addQty sku q (p :: rest) = p :: addQty sku q rest := by
        simp [addQty, hp]
      rw [e1]
      by_cases hs : p.1 = s
      · simp [qtyOf, hs]
      · simp [qtyOf, hs, ih]

theorem keys_addQty (sku : String) (q : ℕ) (m : List (String × ℕ)) :
    (addQty sku q m).map Prod.fst =
      if sku ∈ m.map Prod.fst then m.map Prod.fst else m.map Prod.fst ++ [sku] := by
  induction m with
  | nil => simp [addQty]
  | cons p rest ih =>
    by_cases h : p.1 = sku
    · simp [addQty, h]
    · have hsp : ¬ (sku = p.1) := fun hc => h hc.symm
      by_cases hm : sku ∈ rest.map Prod.fst
      · simp [addQty, h, ih, hm, hsp]
      · simp [addQty, h, ih, hm, hsp]

theorem keys_nodup_addQty (sku : String) (q : ℕ) (m : List (String × ℕ))
    (h : (m.map Prod.fst).Nodup) : ((addQty sku q m).map Prod.fst).Nodup := by
  rw [keys_addQty]
  by_cases hm : sku ∈ m.map Prod.fst
  · simpa [hm] using h
  · simp [hm, List.nodup_append, h]

theorem qtyOf_eq_of_mem {m : List (String × ℕ)} {p : String × ℕ}
    (hnd : (m.map Prod.fst).Nodup) (hp : p ∈ m) : qtyOf p.1 m = p.2 := by
  induction m with
  | nil => simp at hp
  | cons x rest ih =>
    have hnd' : x.1 ∉ rest.map Prod.fst ∧ (rest.map Prod.fst).Nodup := by
      rw [List.map_cons, List.nodup_cons] at hnd
      exact hnd
    rcases List.mem_cons.mp hp with rfl | hm
    · simp [qtyOf]
    · have hx : ¬ (x.1 = p.1) := by
        intro hc
        exact hnd'.1 (hc ▸ List.mem_map_of_mem Prod.fst hm)
      simp [qtyOf, hx, ih hnd'.2 hm]

theorem qtyOf_foldl_items (f : RevenueFn) (ps : List Product) (sku : String)
    (items : List Item) (stat : SellerStat) :
    qtyOf sku ((items.foldl (processItem f ps) stat).products_sold)
      = qtyOf sku stat.products_sold + sumQty sku items := by
  induction items generalizing stat with
  | nil => simp [sumQty]
  | cons it rest ih =>
    rw [List.foldl_cons, ih, sumQty_cons]
    have hps : (processItem f ps stat it).products_sold
        = addQty it.sku it.quantity stat.products_sold := rfl
    rw [hps]
    by_cases h : it.sku = sku
    · subst h
      rw [qtyOf_addQty_self, if_pos rfl]
      omega
    · rw [qtyOf_addQty_ne _ _ _ _ (Ne.symm h)]
      simp [h]

theorem keys_foldl_items (f : RevenueFn) (ps : List Product) (items : List Item)
    (stat : SellerStat) :
    ((items.foldl (processItem f ps) stat).products_sold).map Prod.fst
      = encounterOrder ((stat.products_sold).map Prod.fst) items := by
  induction items generalizing stat with
  | nil => rfl
  | cons it rest ih =>
    rw [List.foldl_cons, ih]
    have hps : (processItem f ps stat it).products_sold
        = addQty it.sku it.quantity stat.products_sold := rfl
    rw [hps, keys_addQty]
    rfl

theorem keys_nodup_foldl_items (f : RevenueFn) (ps : List Product) (items : List Item)
    (stat : SellerStat) (h : ((stat.products_sold).map Prod.fst).Nodup) :
    (((items.foldl (processItem f ps) stat).products_sold).map Prod.fst).Nodup := by
  induction items generalizing stat with
  | nil => exact h
  | cons it rest ih =>
    rw [List.foldl_cons]
    exact ih _ (keys_nodup_addQty _ _ _ h)

theorem qtyOf_processRecord (f : RevenueFn) (ps : List Product) (sku : String)
    (r : PurchaseRecord) (stat : SellerStat) :
    qtyOf sku ((processRecord f ps r stat).products_sold)
      = qtyOf sku stat.products_sold + sumQty sku r.items :=
  qtyOf_foldl_items f ps sku r.items _

theorem qtyOf_foldl_records (f : RevenueFn) (ps : List Product) (sku : String)
    (recs : List PurchaseRecord) (stat : SellerStat) :
    qtyOf sku ((recs.foldl (fun t r => processRecord f ps r t) stat).products_sold)
      = qtyOf sku stat.products_sold + sumQty sku (itemsOf recs) := by
  induction recs generalizing stat with
  | nil => simp [itemsOf, sumQty]
  | cons r rest ih =>
    rw [List.foldl_cons, ih, qtyOf_processRecord]
    rw [show itemsOf (r :: rest) = r.items ++ itemsOf rest from rfl, sumQty_append]
    omega

theorem keys_foldl_records (f : RevenueFn) (ps : List Product)
    (recs : List PurchaseRecord) (stat : SellerStat) :
    (((recs.foldl (fun t r => processRecord f ps r t) stat).products_sold).map Prod.fst)
      = encounterOrder ((stat.products_sold).map Prod.fst) (itemsOf recs) := by
  induction recs generalizing stat with
  | nil => rfl
  | cons r rest ih =>
    rw [List.foldl_cons, ih]
    have hpr : ((processRecord f ps r stat).products_sold).map Prod.fst
        = encounterOrder ((stat.products_sold).map Prod.fst) r.items :=
      keys_foldl_items f ps r.items _
    rw [hpr]
    rw [show itemsOf (r :: rest) = r.items ++ itemsOf rest from rfl]
    exact (List.foldl_append _ _ _ _).symm

theorem keys_nodup_foldl_records (f : RevenueFn) (ps : List Product)
    (recs : List PurchaseRecord) (stat : SellerStat)
    (h : ((stat.products_sold).map Prod.fst).Nodup) :
    (((recs.foldl (fun t r => processRecord f ps r t) stat).products_sold).map Prod.fst).Nodup := by
  induction recs generalizing stat with
  | nil => exact h
  | cons r rest ih =>
    rw [List.foldl_cons]
    exact ih _ (keys_nodup_foldl_items f ps r.items _ h)

/-! ### Lemmas about the ranking stage and the full pipeline -/

theorem assignBonus_length (g : BonusFn) (total k : ℕ) (l : List SellerStat) :
    (assignBonus g total k l).length = l.length := by
  induction l generalizing k with
  | nil => rfl
  | cons s rest ih => simp [assignBonus, ih]

theorem assignBonus_getElem? (g : BonusFn) (total k i : ℕ) (l : List SellerStat) :
    (assignBonus g total k l)[i]? = l[i]?.map (fun s =>
      { stat := s, bonus := g (k + i) total s,
        top_products := topProducts s.products_sold : RankedSeller }) := by
  induction l generalizing k i with
  | nil => simp [assignBonus]
  | cons s rest ih =>
    cases i with
    | zero => simp [assignBonus]
    | succ i' =>
      rw [assignBonus]
      simp only [List.getElem?_cons_succ]
      rw [ih]
      have harith : k + 1 + i' = k + (i' + 1) := by omega
      rw [harith]

theorem runPipeline_getElem? (f : RevenueFn) (g : BonusFn) (ss : List Seller)
    (ps : List Product) (rs : List PurchaseRecord) (i : ℕ) :
    (runPipeline f g ss ps rs)[i]? =
      (sortByProfitDesc (foldRecords f ps (ss.map initStat) rs))[i]?.map
        (fun s => projectSeller
          { stat := s
            bonus := g i (sortByProfitDesc (foldRecords f ps (ss.map initStat) rs)).length s
            top_products := topProducts s.products_sold }) := by
  unfold runPipeline
  rw [List.getElem?_map, assignBonus_getElem?, Option.map_map]
  simp only [Nat.zero_add]
  rfl

theorem runPipeline_length (f : RevenueFn) (g : BonusFn) (ss : List Seller)
    (ps : List Product) (rs : List PurchaseRecord) :
    (runPipeline f g ss ps rs).length = ss.length := by
  unfold runPipeline
  rw [List.length_map, assignBonus_length]
  unfold sortByProfitDesc
  rw [sortDescBy_length, foldRecords_length, List.length_map]

theorem analyzeSalesData_ok_iff (data : Option DataBundle) (options : Option OptionsBundle)
    (report : List ReportEntry) :
    analyzeSalesData data options = Except.ok report ↔
      ∃ d o ss ps rs cs f g,
        data = some d ∧ options = some o ∧
        d.sellers = JsField.array ss ∧ d.products = JsField.array ps ∧
        d.purchase_records = JsField.array rs ∧ d.customers = JsField.array cs ∧
        ss ≠ [] ∧ ps ≠ [] ∧ rs ≠ [] ∧
        o.calculateRevenue = MaybeFn.fn f ∧ o.calculateBonus = MaybeFn.fn g ∧
        report = runPipeline f g ss ps rs := by
  constructor
  · intro h
    unfold analyzeSalesData at h
    split at h
    · exact absurd h (by simp)
    next d =>
      split at h
      next ss ps rs cs hs hp hr hc =>
        split at h
        · exact absurd h (by simp)
        next hne =>
          split at h
          · exact absurd h (by simp)
          next o =>
            split at h
            · exact absurd h (by simp)
            · exact absurd h (by simp)
            · exact absurd h (by simp)
            · exact absurd h (by simp)
            next f g hf hg =>
              refine ⟨d, o, ss, ps, rs, cs, f, g, rfl, rfl, hs, hp, hr, hc, ?_, ?_, ?_,
                hf, hg, ?_⟩
              · intro hcontra
                exact hne (Or.inl (by simp [hcontra]))
              · intro hcontra
                exact hne (Or.inr (Or.inl (by simp [hcontra])))
              · intro hcontra
                exact hne (Or.inr (Or.inr (by simp [hcontra])))
              · cases h
                rfl
      next hother =>
        exact absurd h (by simp)
  · rintro ⟨d, o, ss, ps, rs, cs, f, g, rfl, rfl, hs, hp, hr, hc, hss, hps, hrs, hf, hg, rfl⟩
    simp only [analyzeSalesData, hs, hp, hr, hc, hf, hg]
    rw [if_neg (by simp [hss, hps, hrs])]


theorem analyzeSalesData_error_ne_empty (data : Option DataBundle)
    (options : Option OptionsBundle) (msg : String)
    (h : analyzeSalesData data options = Except.error msg) : msg ≠ "" := by
  have hmsg : msg = invalidDataMsg ∨ msg = optionsObjectMsg ∨ msg = optionsMissingMsg
      ∨ msg = optionsTypeMsg := by
    unfold analyzeSalesData at h
    split at h
    · exact Or.inl (Except.error.inj h).symm
    · split at h
      · split at h
        · exact Or.inl (Except.error.inj h).symm
        · split at h
          · exact Or.inr (Or.inl (Except.error.inj h).symm)
          · split at h
            · exact Or.inr (Or.inr (Or.inl (Except.error.inj h).symm))
            · exact Or.inr (Or.inr (Or.inl (Except.error.inj h).symm))
            · exact Or.inr (Or.inr (Or.inr (Except.error.inj h).symm))
            · exact Or.inr (Or.inr (Or.inr (Except.error.inj h).symm))
            · exact absurd h (by simp)
      · exact Or.inl (Except.error.inj h).symm
  rcases hmsg with rfl | rfl | rfl | rfl <;> decide

/-- Concrete evaluation of the whole pipeline on the §8 example input,
shared by several witnesses. -/
theorem exampleRun_eq :
    analyzeSalesData (some (mkData [seller0] [product0] [record0])) (some defaultOpts)
      = Except.ok [reportEntry0] := by
  simp only [analyzeSalesData, mkData, defaultOpts, mkOpts, runPipeline, foldRecords,
    sortByProfitDesc, sortDescBy, insertDescBy, assignBonus, projectSeller, topProducts,
    applyAtLast, lastIdxOf, processRecord, processItem, lookupProduct, addQty, initStat,
    seller0, product0, record0, item0, reportEntry0, calculateSimpleRevenue,
    calculateBonusByProfit, round2, List.foldl, List.foldr, List.map, List.filter,
    List.getLast?, List.get?, List.set, List.take, List.length]
  norm_num [round_eq]
  decide

/-! ### Claim theorems -/

/-- C2: under the default bonus policy `calculateBonusByProfit`, read as
the ordered tiering of the source: rank 0 gets 0.15 × profit; ranks 1
and 2 get 0.10 × profit; the last rank, when it is not one of ranks
0–2 (at least 4 sellers), gets exactly 0; every other rank gets
0.05 × profit; and with exactly one seller the bonus is 0.15 × profit. -/
theorem C2_bonus_tiers (index total : ℕ) (seller : SellerStat) :
    (calculateBonusByProfit 0 total seller = seller.profit * (15 / 100))
  ∧ (index = 1 ∨ index = 2 → calculateBonusByProfit index total seller
      = seller.profit * (10 / 100))
  ∧ (4 ≤ total → calculateBonusByProfit (total - 1) total seller = 0)
  ∧ (3 ≤ index → index + 1 < total → calculateBonusByProfit index total seller
      = seller.profit * (5 / 100))
  ∧ calculateBonusByProfit 0 1 seller = seller.profit * (15 / 100) := by
  refine ⟨?_, ?_, ?_, ?_, ?_⟩
  · simp [calculateBonusByProfit]
  · rintro (rfl | rfl) <;> simp [calculateBonusByProfit]
  · intro h4
    unfold calculateBonusByProfit
    rw [if_neg (by omega : ¬ (total - 1 = 0)),
      if_neg (by omega : ¬ (total - 1 = 1 ∨ total - 1 = 2)), if_pos rfl]
  · intro h3 hlt
    unfold calculateBonusByProfit
    rw [if_neg (by omega : ¬ (index = 0)),
      if_neg (by omega : ¬ (index = 1 ∨ index = 2)),
      if_neg (by omega : ¬ (index = total - 1))]
  · simp [calculateBonusByProfit]

/-- Witness for C2: concrete tiers with 5 sellers, discharging the
conditional clauses at ranks 1, 4 (last) and 3. -/
theorem C2_bonus_tiers_witness :
    calculateBonusByProfit 1 5 (initStat seller0)
        = (initStat seller0).profit * (10 / 100)
  ∧ calculateBonusByProfit 4 5 (initStat seller0) = 0
  ∧ calculateBonusByProfit 3 5 (initStat seller0)
        = (initStat seller0).profit * (5 / 100) :=
  ⟨(C2_bonus_tiers 1 5 (initStat seller0)).2.1 (Or.inl rfl),
   (C2_bonus_tiers 4 5 (initStat seller0)).2.2.1 (by omega),
   (C2_bonus_tiers 3 5 (initStat seller0)).2.2.2.1 (by omega) (by omega)⟩

/-- C8: with the default policies, one seller, one purchase record with
one item (sale_price 100, quantity 2, discount 10) and a matching
product (purchase_price 40) yield one entry with revenue 180, profit
100, sales_count 1 and bonus 15. -/
theorem C8_single_seller_example :
    analyzeSalesData (some (mkData [seller0] [product0] [record0])) (some defaultOpts)
        = Except.ok [reportEntry0]
  ∧ reportEntry0.revenue = 180 ∧ reportEntry0.profit = 100
  ∧ reportEntry0.sales_count = 1 ∧ reportEntry0.bonus = 15 :=
  ⟨exampleRun_eq, rfl, rfl, rfl, rfl⟩

/-- C1 counterexample: an input bundle whose three required collections
are non-empty arrays and whose options carry two genuine functions —
i.e. everything the claim demands — but whose customers slot is absent;
the validator nevertheless rejects it, so customers are not optional. -/
theorem C1_customers_required_counterexample :
    dataNoCustomers.sellers = JsField.array [seller0]
  ∧ dataNoCustomers.products = JsField.array [product0]
  ∧ dataNoCustomers.purchase_records = JsField.array [record0]
  ∧ defaultOpts.calculateRevenue = MaybeFn.fn calculateSimpleRevenue
  ∧ defaultOpts.calculateBonus = MaybeFn.fn calculateBonusByProfit
  ∧ analyzeSalesData (some dataNoCustomers) (some defaultOpts)
      = Except.error invalidDataMsg :=
  ⟨rfl, rfl, rfl, rfl, rfl, rfl⟩

/-- C1 (amended): `analyzeSalesData` succeeds exactly when the input
bundle is present with all four collections — customers included —
being arrays, the three required ones non-empty, and the options bundle
is present with two invokable policy functions; in every other case it
fails fast with a descriptive (non-empty) error message. -/
theorem C1_validation_amended (data : Option DataBundle) (options : Option OptionsBundle) :
    ((∃ report, analyzeSalesData data options = Except.ok report) ↔
      ((∃ d, data = some d
        ∧ (∃ ss, d.sellers = JsField.array ss ∧ ss ≠ [])
        ∧ (∃ ps, d.products = JsField.array ps ∧ ps ≠ [])
        ∧ (∃ rs, d.purchase_records = JsField.array rs ∧ rs ≠ [])
        ∧ (∃ cs, d.customers = JsField.array cs))
      ∧ (∃ o, options = some o
        ∧ (∃ f, o.calculateRevenue = MaybeFn.fn f)
        ∧ (∃ g, o.calculateBonus = MaybeFn.fn g))))
  ∧ ((∃ msg, analyzeSalesData data options = Except.error msg ∧ msg ≠ "") ↔
      ¬ ((∃ d, data = some d
        ∧ (∃ ss, d.sellers = JsField.array ss ∧ ss ≠ [])
        ∧ (∃ ps, d.products = JsField.array ps ∧ ps ≠ [])
        ∧ (∃ rs, d.purchase_records = JsField.array rs ∧ rs ≠ [])
        ∧ (∃ cs, d.customers = JsField.array cs))
      ∧ (∃ o, options = some o
        ∧ (∃ f, o.calculateRevenue = MaybeFn.fn f)
        ∧ (∃ g, o.calculateBonus = MaybeFn.fn g)))) := by
  have hok : (∃ report, analyzeSalesData data options = Except.ok report) ↔
      ((∃ d, data = some d
        ∧ (∃ ss, d.sellers = JsField.array ss ∧ ss ≠ [])
        ∧ (∃ ps, d.products = JsField.array ps ∧ ps ≠ [])
        ∧ (∃ rs, d.purchase_records = JsField.array rs ∧ rs ≠ [])
        ∧ (∃ cs, d.customers = JsField.array cs))
      ∧ (∃ o, options = some o
        ∧ (∃ f, o.calculateRevenue = MaybeFn.fn f)
        ∧ (∃ g, o.calculateBonus = MaybeFn.fn g))) := by
    constructor
    · rintro ⟨report, h⟩
      rcases (analyzeSalesData_ok_iff data options report).mp h with
        ⟨d, o, ss, ps, rs, cs, f, g, rfl, rfl, hs, hp, hr, hc, hss, hps, hrs, hf, hg, rfl⟩
      exact ⟨⟨d, rfl, ⟨ss, hs, hss⟩, ⟨ps, hp, hps⟩, ⟨rs, hr, hrs⟩, ⟨cs, hc⟩⟩,
        ⟨o, rfl, ⟨f, hf⟩, ⟨g, hg⟩⟩⟩
    · rintro ⟨⟨d, rfl, ⟨ss, hs, hss⟩, ⟨ps, hp, hps⟩, ⟨rs, hr, hrs⟩, ⟨cs, hc⟩⟩,
        ⟨o, rfl, ⟨f, hf⟩, ⟨g, hg⟩⟩⟩
      exact ⟨runPipeline f g ss ps rs,
        (analyzeSalesData_ok_iff (some d) (some o) (runPipeline f g ss ps rs)).mpr
          ⟨d, o, ss, ps, rs, cs, f, g, rfl, rfl, hs, hp, hr, hc, hss, hps, hrs, hf, hg, rfl⟩⟩
  refine ⟨hok, ?_⟩
  constructor
  · rintro ⟨msg, herr, _⟩ hcond
    rcases hok.mpr hcond with ⟨report, hrep⟩
    rw [herr] at hrep
    exact Except.noConfusion hrep
  · intro hcond
    rcases hres : analyzeSalesData data options with msg | report
    · exact ⟨msg, rfl, analyzeSalesData_error_ne_empty data options msg hres⟩
    · exact absurd (hok.mp ⟨report, hres⟩) hcond

/-- Witness for C1: the amended characterization applied to a concrete
fully-valid bundle yields a successful run. -/
theorem C1_validation_amended_witness :
    ∃ report, analyzeSalesData (some (mkData [seller0] [product0] [record0]))
        (some defaultOpts) = Except.ok report :=
  ((C1_validation_amended (some (mkData [seller0] [product0] [record0]))
      (some defaultOpts)).1).mpr
    ⟨⟨mkData [seller0] [product0] [record0], rfl,
      ⟨[seller0], rfl, List.cons_ne_nil seller0 []⟩,
      ⟨[product0], rfl, List.cons_ne_nil product0 []⟩,
      ⟨[record0], rfl, List.cons_ne_nil record0 []⟩,
      ⟨[], rfl⟩⟩,
     ⟨defaultOpts, rfl, ⟨calculateSimpleRevenue, rfl⟩, ⟨calculateBonusByProfit, rfl⟩⟩⟩

theorem lastIdxOf_eq_none_of_not_mem {id : String} {ids : List String}
    (h : id ∉ ids) : lastIdxOf id ids = none := by
  rcases hres : lastIdxOf id ids with _ | j
  · rfl
  · exact absurd (List.getElem?_mem (lastIdxOf_getElem? hres)) h

theorem initStats_map_id (ss : List Seller) :
    (ss.map initStat).map (fun t => t.id) = ss.map (fun s => s.id) := by
  rw [List.map_map]
  rfl

theorem analyzeSalesData_ok_elim {d : DataBundle} {o : OptionsBundle}
    {ss : List Seller} {ps : List Product} {rs : List PurchaseRecord}
    {f : RevenueFn} {g : BonusFn} {report : List ReportEntry}
    (hs : d.sellers = JsField.array ss) (hp : d.products = JsField.array ps)
    (hr : d.purchase_records = JsField.array rs)
    (hf : o.calculateRevenue = MaybeFn.fn f) (hg : o.calculateBonus = MaybeFn.fn g)
    (h : analyzeSalesData (some d) (some o) = Except.ok report) :
    report = runPipeline f g ss ps rs := by
  rcases (analyzeSalesData_ok_iff _ _ _).mp h with
    ⟨d', o', ss', ps', rs', cs', f', g', hd, ho, hs', hp', hr', hc', hne1, hne2, hne3,
      hf', hg', hrep⟩
  have hd' : d' = d := (Option.some.inj hd).symm
  rw [hd'] at hs' hp' hr'
  have ho' : o' = o := (Option.some.inj ho).symm
  rw [ho'] at hf' hg'
  rw [hrep]
  rw [← JsField.array.inj (hs.symm.trans hs'), ← JsField.array.inj (hp.symm.trans hp'),
    ← JsField.array.inj (hr.symm.trans hr'), ← MaybeFn.fn.inj (hf.symm.trans hf'),
    ← MaybeFn.fn.inj (hg.symm.trans hg')]

/-- C9: the bonus policy is invoked on the raw accumulated seller record
(unrounded profit, after ranking); revenue, profit and bonus are rounded
to 2 decimals exactly once, in the final projection, so the output bonus
is the 2-decimal rounding of the bonus policy applied to the
unrounded-profit stat at its rank. -/
theorem C9_round_once_at_projection (d : DataBundle) (o : OptionsBundle)
    (ss : List Seller) (ps : List Product) (rs : List PurchaseRecord)
    (f : RevenueFn) (g : BonusFn) (report : List ReportEntry) (i : ℕ)
    (hs : d.sellers = JsField.array ss) (hp : d.products = JsField.array ps)
    (hr : d.purchase_records = JsField.array rs)
    (hf : o.calculateRevenue = MaybeFn.fn f) (hg : o.calculateBonus = MaybeFn.fn g)
    (h : analyzeSalesData (some d) (some o) = Except.ok report)
    (hi : i < report.length) :
    ∃ stat, (sortByProfitDesc (foldRecords f ps (ss.map initStat) rs))[i]? = some stat
      ∧ report[i]? = some
          { seller_id := stat.id
            name := stat.name
            revenue := round2 stat.revenue
            profit := round2 stat.profit
            sales_count := stat.sales_count
            top_products := topProducts stat.products_sold
            bonus := round2 (g i
              (sortByProfitDesc (foldRecords f ps (ss.map initStat) rs)).length stat) } := by
  have hrep := analyzeSalesData_ok_elim hs hp hr hf hg h
  subst hrep
  rw [runPipeline_length] at hi
  have hlen : i < (sortByProfitDesc (foldRecords f ps (ss.map initStat) rs)).length := by
    unfold sortByProfitDesc
    rw [sortDescBy_length, foldRecords_length, List.length_map]
    exact hi
  refine ⟨(sortByProfitDesc (foldRecords f ps (ss.map initStat) rs))[i], 
    List.getElem?_eq_getElem hlen, ?_⟩
  rw [runPipeline_getElem?, List.getElem?_eq_getElem hlen]
  rfl

/-- Witness for C9: the characterization applied at rank 0 of the
concrete §8 run. -/
theorem C9_round_once_witness :
    ∃ stat, (sortByProfitDesc (foldRecords calculateSimpleRevenue [product0]
        ([seller0].map initStat) [record0]))[0]? = some stat
      ∧ [reportEntry0][0]? = some
          { seller_id := stat.id
            name := stat.name
            revenue := round2 stat.revenue
            profit := round2 stat.profit
            sales_count := stat.sales_count
            top_products := topProducts stat.products_sold
            bonus := round2 (calculateBonusByProfit 0
              (sortByProfitDesc (foldRecords calculateSimpleRevenue [product0]
                ([seller0].map initStat) [record0])).length stat) } :=
  C9_round_once_at_projection (mkData [seller0] [product0] [record0]) defaultOpts
    [seller0] [product0] [record0] calculateSimpleRevenue calculateBonusByProfit
    [reportEntry0] 0 rfl rfl rfl rfl rfl exampleRun_eq (by simp)

/-- C4: report entries come out sorted by profit descending (adjacent
pairs non-increasing), and the sort is stable: sellers whose accumulated
profit is exactly equal keep their relative order from the accumulator
list, which is in input seller order. -/
theorem C4_sorted_by_profit_stable (d : DataBundle) (o : OptionsBundle)
    (ss : List Seller) (ps : List Product) (rs : List PurchaseRecord)
    (f : RevenueFn) (g : BonusFn) (report : List ReportEntry)
    (hs : d.sellers = JsField.array ss) (hp : d.products = JsField.array ps)
    (hr : d.purchase_records = JsField.array rs)
    (hf : o.calculateRevenue = MaybeFn.fn f) (hg : o.calculateBonus = MaybeFn.fn g)
    (h : analyzeSalesData (some d) (some o) = Except.ok report) :
    (∀ i a b, report[i]? = some a → report[i + 1]? = some b → b.profit ≤ a.profit)
  ∧ (∀ q : ℚ, (sortByProfitDesc (foldRecords f ps (ss.map initStat) rs)).filter
        (fun s => decide (s.profit = q))
      = (foldRecords f ps (ss.map initStat) rs).filter (fun s => decide (s.profit = q))) := by
  have hrep := analyzeSalesData_ok_elim hs hp hr hf hg h
  subst hrep
  constructor
  · intro i a b ha hb
    rw [runPipeline_getElem?] at ha hb
    rcases Option.map_eq_some'.mp ha with ⟨sa, hsa, rfl⟩
    rcases Option.map_eq_some'.mp hb with ⟨sb, hsb, rfl⟩
    have hpair := sortDescBy_pairwise (fun s => s.profit)
      (foldRecords f ps (ss.map initStat) rs)
    have hle : sb.profit ≤ sa.profit := pairwise_getElem?_adj hpair hsa hsb
    simpa [projectSeller] using round2_mono hle
  · intro q
    unfold sortByProfitDesc
    exact sortDescBy_filter _ _ q

/-- Witness for C4: the stability clause instantiated on the concrete
§8 run at profit value 100. -/
theorem C4_sorted_by_profit_witness :
    (sortByProfitDesc (foldRecords calculateSimpleRevenue [product0]
        ([seller0].map initStat) [record0])).filter (fun s => decide (s.profit = 100))
      = (foldRecords calculateSimpleRevenue [product0]
        ([seller0].map initStat) [record0]).filter (fun s => decide (s.profit = 100)) :=
  (C4_sorted_by_profit_stable (mkData [seller0] [product0] [record0]) defaultOpts
    [seller0] [product0] [record0] calculateSimpleRevenue calculateBonusByProfit
    [reportEntry0] rfl rfl rfl rfl rfl exampleRun_eq).2 100

/-- C5: a purchase record whose seller identifier matches no input
seller is skipped entirely: the accumulator fold yields exactly the same
stats with or without it, and — whenever removing it leaves the record
list non-empty, so that both inputs are valid — the whole pipeline
output is unchanged. -/
theorem C5_unknown_seller_skipped (f : RevenueFn) (g : BonusFn) (ss : List Seller)
    (ps : List Product) (pre post : List PurchaseRecord) (r : PurchaseRecord)
    (hunknown : ∀ s ∈ ss, s.id ≠ r.seller_id) :
    foldRecords f ps (ss.map initStat) (pre ++ r :: post)
      = foldRecords f ps (ss.map initStat) (pre ++ post)
  ∧ (ss ≠ [] → ps ≠ [] → pre ++ post ≠ [] →
      analyzeSalesData (some (mkData ss ps (pre ++ r :: post))) (some (mkOpts f g))
        = analyzeSalesData (some (mkData ss ps (pre ++ post))) (some (mkOpts f g))) := by
  have hids : ∀ stats : List SellerStat,
      stats.map (fun s => s.id) = ss.map (fun s => s.id) →
      applyAtLast r.seller_id (processRecord f ps r) stats = stats := by
    intro stats hmap
    apply applyAtLast_eq_none
    rw [hmap]
    apply lastIdxOf_eq_none_of_not_mem
    intro hmem
    rcases List.mem_map.mp hmem with ⟨s, hsmem, hsid⟩
    exact hunknown s hsmem hsid
  have hfold : foldRecords f ps (ss.map initStat) (pre ++ r :: post)
      = foldRecords f ps (ss.map initStat) (pre ++ post) := by
    unfold foldRecords
    rw [List.foldl_append, List.foldl_append, List.foldl_cons]
    congr 1
    apply hids
    have hmapid := foldRecords_map_id f ps (ss.map initStat) pre
    rw [initStats_map_id] at hmapid
    exact hmapid
  refine ⟨hfold, fun hss hps hpp => ?_⟩
  have h1 := (analyzeSalesData_ok_iff (some (mkData ss ps (pre ++ r :: post)))
      (some (mkOpts f g)) (runPipeline f g ss ps (pre ++ r :: post))).mpr
    ⟨mkData ss ps (pre ++ r :: post), mkOpts f g, ss, ps, pre ++ r :: post, [], f, g,
      rfl, rfl, rfl, rfl, rfl, rfl, hss, hps, (by simp), rfl, rfl, rfl⟩
  have h2 := (analyzeSalesData_ok_iff (some (mkData ss ps (pre ++ post)))
      (some (mkOpts f g)) (runPipeline f g ss ps (pre ++ post))).mpr
    ⟨mkData ss ps (pre ++ post), mkOpts f g, ss, ps, pre ++ post, [], f, g,
      rfl, rfl, rfl, rfl, rfl, rfl, hss, hps, hpp, rfl, rfl, rfl⟩
  rw [h1, h2]
  have hpipe : runPipeline f g ss ps (pre ++ r :: post)
      = runPipeline f g ss ps (pre ++ post) := by
    unfold runPipeline
    rw [hfold]
  rw [hpipe]

/-- Witness for C5: with one known seller, inserting a record for the
unknown identifier `zz` changes neither the fold nor the output. -/
theorem C5_unknown_seller_witness :
    analyzeSalesData (some (mkData [seller0] [product0] ([record0] ++ [recordUnknown])))
        (some (mkOpts calculateSimpleRevenue calculateBonusByProfit))
      = analyzeSalesData (some (mkData [seller0] [product0] ([record0] ++ [])))
        (some (mkOpts calculateSimpleRevenue calculateBonusByProfit)) := by
  have h := (C5_unknown_seller_skipped calculateSimpleRevenue calculateBonusByProfit
    [seller0] [product0] [record0] [] recordUnknown (by decide)).2
    (by decide) (by decide) (by decide)
  exact h

/-- C6: a line item whose SKU matches no product still adds its policy
revenue in full to the running revenue, has cost 0 (so the profit
contribution equals the revenue), and still adds its quantity to the
per-SKU sold-quantity counter for that unknown SKU. -/
theorem C6_unknown_sku_item (f : RevenueFn) (ps : List Product) (stat : SellerStat)
    (item : Item) (h : ∀ p ∈ ps, p.sku ≠ item.sku) :
    (processItem f ps stat item).revenue = stat.revenue + f item none
  ∧ (processItem f ps stat item).profit = stat.profit + f item none
  ∧ qtyOf item.sku (processItem f ps stat item).products_sold
      = qtyOf item.sku stat.products_sold + item.quantity := by
  have hlook : lookupProduct ps item.sku = none := by
    unfold lookupProduct
    rw [List.filter_eq_nil_iff.mpr (fun p hp => by simpa using h p hp)]
    rfl
  refine ⟨?_, ?_, ?_⟩
  · simp [processItem, hlook]
  · simp [processItem, hlook]
  · simp only [processItem, hlook]
    exact qtyOf_addQty_self item.sku item.quantity stat.products_sold

/-- Witness for C6: the unknown-SKU item `itemUnknown` against the
single-product catalogue. -/
theorem C6_unknown_sku_witness :
    (processItem calculateSimpleRevenue [product0] (initStat seller0) itemUnknown).revenue
        = (initStat seller0).revenue + calculateSimpleRevenue itemUnknown none
  ∧ (processItem calculateSimpleRevenue [product0] (initStat seller0) itemUnknown).profit
        = (initStat seller0).profit + calculateSimpleRevenue itemUnknown none
  ∧ qtyOf itemUnknown.sku
        (processItem calculateSimpleRevenue [product0] (initStat seller0)
          itemUnknown).products_sold
      = qtyOf itemUnknown.sku (initStat seller0).products_sold + itemUnknown.quantity :=
  C6_unknown_sku_item calculateSimpleRevenue [product0] (initStat seller0) itemUnknown
    (by decide)

/-- Concrete evaluation with a second seller that has no attributed
records: it still gets its own (zero) report entry, ranked last. -/
theorem exampleRun2_eq :
    analyzeSalesData (some (mkData [seller0, seller1] [product0] [record0]))
        (some defaultOpts) = Except.ok [reportEntry0, reportEntry1] := by
  norm_num [analyzeSalesData, mkData, defaultOpts, mkOpts, runPipeline, foldRecords,
    sortByProfitDesc, sortDescBy, insertDescBy, assignBonus, projectSeller, topProducts,
    applyAtLast, lastIdxOf, processRecord, processItem, lookupProduct, addQty, initStat,
    seller0, seller1, product0, record0, item0, reportEntry0, reportEntry1,
    calculateSimpleRevenue, calculateBonusByProfit, round2, round_eq, List.foldl,
    List.foldr, List.map, List.filter, List.getLast?, List.get?, List.set, List.take,
    List.length]
  decide

/-- C3: every input seller yields exactly one report entry, and a seller
with zero attributed purchase records appears with revenue 0, profit 0,
sales count 0, empty top products, and a bonus computed by the policy
from its zero-profit accumulator at some rank. -/
theorem C3_entry_per_seller (d : DataBundle) (o : OptionsBundle)
    (ss : List Seller) (ps : List Product) (rs : List PurchaseRecord)
    (f : RevenueFn) (g : BonusFn) (report : List ReportEntry)
    (hs : d.sellers = JsField.array ss) (hp : d.products = JsField.array ps)
    (hr : d.purchase_records = JsField.array rs)
    (hf : o.calculateRevenue = MaybeFn.fn f) (hg : o.calculateBonus = MaybeFn.fn g)
    (h : analyzeSalesData (some d) (some o) = Except.ok report) :
    report.length = ss.length
  ∧ ∀ s ∈ ss, (∀ r ∈ rs, r.seller_id ≠ s.id) →
      ∃ e ∈ report, e.seller_id = s.id
        ∧ e.name = s.first_name ++ " " ++ s.last_name
        ∧ e.revenue = 0 ∧ e.profit = 0 ∧ e.sales_count = 0 ∧ e.top_products = []
        ∧ (initStat s).profit = 0
        ∧ ∃ i, i < ss.length ∧ e.bonus = round2 (g i ss.length (initStat s)) := by
  have hrep := analyzeSalesData_ok_elim hs hp hr hf hg h
  subst hrep
  refine ⟨runPipeline_length f g ss ps rs, ?_⟩
  intro s hsmem hnorec
  rcases List.getElem?_of_mem hsmem with ⟨j, hj⟩
  have hjinit : (ss.map initStat)[j]? = some (initStat s) := by
    rw [List.getElem?_map, hj]
    rfl
  have hfilter : rs.filter (fun r =>
      decide (lastIdxOf r.seller_id ((ss.map initStat).map (fun t => t.id)) = some j))
      = [] := by
    apply List.filter_eq_nil_iff.mpr
    intro r hrmem
    simp only [decide_eq_true_eq, initStats_map_id]
    intro hcontra
    have h1 : (ss.map (fun s => s.id))[j]? = some r.seller_id :=
      lastIdxOf_getElem? hcontra
    have h2 : (ss.map (fun s => s.id))[j]? = some s.id := by
      rw [List.getElem?_map, hj]
      rfl
    rw [h1] at h2
    exact hnorec r hrmem (Option.some.inj h2)
  have hfold : (foldRecords f ps (ss.map initStat) rs)[j]? = some (initStat s) := by
    rw [foldRecords_getElem?, hjinit, hfilter]
    rfl
  have hmem2 : initStat s ∈ sortByProfitDesc (foldRecords f ps (ss.map initStat) rs) := by
    unfold sortByProfitDesc
    exact mem_sortDescBy.mpr (List.getElem?_mem hfold)
  rcases List.getElem?_of_mem hmem2 with ⟨i, hi⟩
  have hilt : i < (sortByProfitDesc (foldRecords f ps (ss.map initStat) rs)).length := by
    rcases List.getElem?_eq_some_iff.mp hi with ⟨hlt, _⟩
    exact hlt
  have hlen2 : (sortByProfitDesc (foldRecords f ps (ss.map initStat) rs)).length
      = ss.length := by
    unfold sortByProfitDesc
    rw [sortDescBy_length, foldRecords_length, List.length_map]
  have hrep2 : (runPipeline f g ss ps rs)[i]? = some (projectSeller
      { stat := initStat s
        bonus := g i (sortByProfitDesc (foldRecords f ps (ss.map initStat) rs)).length
          (initStat s)
        top_products := topProducts (initStat s).products_sold }) := by
    rw [runPipeline_getElem?, hi]
    rfl
  refine ⟨_, List.getElem?_mem hrep2, rfl, rfl, ?_, ?_, rfl, rfl, rfl, ⟨i, ?_, ?_⟩⟩
  · exact round2_zero
  · exact round2_zero
  · rw [← hlen2]
    exact hilt
  · rw [← hlen2]
    rfl

/-- Witness for C3: in the two-seller run, seller `s2` has no records
and appears zero-initialized. -/
theorem C3_entry_witness :
    ∃ e ∈ [reportEntry0, reportEntry1], e.seller_id = seller1.id
      ∧ e.name = seller1.first_name ++ " " ++ seller1.last_name
      ∧ e.revenue = 0 ∧ e.profit = 0 ∧ e.sales_count = 0 ∧ e.top_products = []
      ∧ (initStat seller1).profit = 0
      ∧ ∃ i, i < [seller0, seller1].length
          ∧ e.bonus = round2 (calculateBonusByProfit i [seller0, seller1].length
              (initStat seller1)) :=
  (C3_entry_per_seller (mkData [seller0, seller1] [product0] [record0]) defaultOpts
    [seller0, seller1] [product0] [record0] calculateSimpleRevenue calculateBonusByProfit
    [reportEntry0, reportEntry1] rfl rfl rfl rfl rfl exampleRun2_eq).2 seller1
    (by decide) (by decide)

/-- C7: each report entry's top_products has at most 10 entries and is
sorted by quantity descending; it is the stable descending sort of the
seller's accumulated per-SKU map truncated to 10, so ties keep the
map's insertion order; every listed quantity equals the map's total for
that SKU; the map's total for every SKU is the sum of that SKU's
quantities over the seller's attributed line items; and the map's keys
are in first-encounter order over those items. -/
theorem C7_top_products_shape (d : DataBundle) (o : OptionsBundle)
    (ss : List Seller) (ps : List Product) (rs : List PurchaseRecord)
    (f : RevenueFn) (g : BonusFn) (report : List ReportEntry)
    (hs : d.sellers = JsField.array ss) (hp : d.products = JsField.array ps)
    (hr : d.purchase_records = JsField.array rs)
    (hf : o.calculateRevenue = MaybeFn.fn f) (hg : o.calculateBonus = MaybeFn.fn g)
    (h : analyzeSalesData (some d) (some o) = Except.ok report)
    (e : ReportEntry) (he : e ∈ report) :
    e.top_products.length ≤ 10
  ∧ e.top_products.Pairwise (fun a b => b.2 ≤ a.2)
  ∧ ∃ j stat, (foldRecords f ps (ss.map initStat) rs)[j]? = some stat
      ∧ e.top_products = topProducts stat.products_sold
      ∧ (∀ p ∈ e.top_products, p.2 = qtyOf p.1 stat.products_sold)
      ∧ (∀ sku, qtyOf sku stat.products_sold
            = sumQty sku (itemsOf (rs.filter (fun r =>
                decide (lastIdxOf r.seller_id (ss.map (fun s => s.id)) = some j)))))
      ∧ (stat.products_sold.map Prod.fst
            = encounterOrder [] (itemsOf (rs.filter (fun r =>
                decide (lastIdxOf r.seller_id (ss.map (fun s => s.id)) = some j)))))
      ∧ (∀ q : ℕ, (sortDescBy (fun p => p.2) stat.products_sold).filter
            (fun p => decide (p.2 = q))
          = stat.products_sold.filter (fun p => decide (p.2 = q))) := by
  have hrep := analyzeSalesData_ok_elim hs hp hr hf hg h
  subst hrep
  rcases List.getElem?_of_mem he with ⟨i, hi⟩
  rw [runPipeline_getElem?] at hi
  rcases Option.map_eq_some'.mp hi with ⟨stat, hstat, rfl⟩
  have hmem : stat ∈ foldRecords f ps (ss.map initStat) rs := by
    have hmem1 := List.getElem?_mem hstat
    unfold sortByProfitDesc at hmem1
    exact mem_sortDescBy.mp hmem1
  rcases List.getElem?_of_mem hmem with ⟨j, hj0⟩
  have hj1 := hj0
  rw [foldRecords_getElem?, initStats_map_id] at hj1
  rcases Option.map_eq_some'.mp hj1 with ⟨s0, hs0, hstatEq0⟩
  rw [List.getElem?_map] at hs0
  rcases Option.map_eq_some'.mp hs0 with ⟨sj, hsj, rfl⟩
  have hstatEq : (rs.filter (fun r =>
      decide (lastIdxOf r.seller_id (ss.map (fun s => s.id)) = some j))).foldl
        (fun t r => processRecord f ps r t) (initStat sj) = stat := hstatEq0
  have hnd : (stat.products_sold.map Prod.fst).Nodup := by
    rw [← hstatEq]
    exact keys_nodup_foldl_records f ps _ (initStat sj) List.nodup_nil
  refine ⟨?_, ?_, j, stat, hj0, rfl, ?_, ?_, ?_, ?_⟩
  · show (topProducts stat.products_sold).length ≤ 10
    unfold topProducts
    rw [List.length_take]
    exact min_le_left _ _
  · show (topProducts stat.products_sold).Pairwise (fun a b => b.2 ≤ a.2)
    unfold topProducts
    exact List.Pairwise.sublist (List.take_sublist _ _)
      (sortDescBy_pairwise (fun p => p.2) stat.products_sold)
  · intro p hp
    have hp1 : p ∈ sortDescBy (fun p => p.2) stat.products_sold :=
      List.mem_of_mem_take hp
    exact (qtyOf_eq_of_mem hnd (mem_sortDescBy.mp hp1)).symm
  · intro sku
    rw [← hstatEq, qtyOf_foldl_records]
    have hzero : qtyOf sku (initStat sj).products_sold = 0 := rfl
    rw [hzero, Nat.zero_add]
  · rw [← hstatEq, keys_foldl_records]
    rfl
  · intro q
    exact sortDescBy_filter _ _ q

/-- Witness for C7: the characterization at the single entry of the §8
run. -/
theorem C7_top_products_witness :
    reportEntry0.top_products.length ≤ 10
  ∧ reportEntry0.top_products.Pairwise (fun a b => b.2 ≤ a.2)
  ∧ ∃ j stat, (foldRecords calculateSimpleRevenue [product0]
        ([seller0].map initStat) [record0])[j]? = some stat
      ∧ reportEntry0.top_products = topProducts stat.products_sold
      ∧ (∀ p ∈ reportEntry0.top_products, p.2 = qtyOf p.1 stat.products_sold)
      ∧ (∀ sku, qtyOf sku stat.products_sold
            = sumQty sku (itemsOf ([record0].filter (fun r =>
                decide (lastIdxOf r.seller_id ([seller0].map (fun s => s.id)) = some j)))))
      ∧ (stat.products_sold.map Prod.fst
            = encounterOrder [] (itemsOf ([record0].filter (fun r =>
                decide (lastIdxOf r.seller_id ([seller0].map (fun s => s.id)) = some j)))))
      ∧ (∀ q : ℕ, (sortDescBy (fun p => p.2) stat.products_sold).filter
            (fun p => decide (p.2 = q))
          = stat.products_sold.filter (fun p => decide (p.2 = q))) :=
  C7_top_products_shape (mkData [seller0] [product0] [record0]) defaultOpts
    [seller0] [product0] [record0] calculateSimpleRevenue calculateBonusByProfit
    [reportEntry0] rfl rfl rfl rfl rfl exampleRun_eq reportEntry0 (by simp)

/-- Concrete evaluation with two sellers sharing the identifier `s1`:
the record is attributed to the later duplicate and the earlier one
stays zero-initialized. -/
theorem exampleRunDup_eq :
    analyzeSalesData (some (mkData [seller0, seller0b] [product0] [record0]))
        (some defaultOpts) = Except.ok [reportEntryDup0, reportEntryDup1] := by
  norm_num [analyzeSalesData, mkData, defaultOpts, mkOpts, runPipeline, foldRecords,
    sortByProfitDesc, sortDescBy, insertDescBy, assignBonus, projectSeller, topProducts,
    applyAtLast, lastIdxOf, processRecord, processItem, lookupProduct, addQty, initStat,
    seller0, seller0b, product0, record0, item0, reportEntryDup0, reportEntryDup1,
    calculateSimpleRevenue, calculateBonusByProfit, round2, round_eq, List.foldl,
    List.foldr, List.map, List.filter, List.getLast?, List.get?, List.set, List.take,
    List.length]
  decide

/-- C10: with duplicate seller identifiers, each duplicate still yields
its own report entry (report length = seller count, and the earlier
duplicate appears as a zero entry); every purchase record bearing that
identifier is looked up to the LAST input position carrying it, whose
accumulator receives the fold of all those records, while the earlier
duplicate's accumulator stays zero-initialized. -/
theorem C10_duplicate_seller_ids (d : DataBundle) (o : OptionsBundle)
    (ss : List Seller) (ps : List Product) (rs : List PurchaseRecord)
    (f : RevenueFn) (g : BonusFn) (report : List ReportEntry)
    (hs : d.sellers = JsField.array ss) (hp : d.products = JsField.array ps)
    (hr : d.purchase_records = JsField.array rs)
    (hf : o.calculateRevenue = MaybeFn.fn f) (hg : o.calculateBonus = MaybeFn.fn g)
    (h : analyzeSalesData (some d) (some o) = Except.ok report)
    (i k : ℕ) (si sk : Seller)
    (hik : i < k) (hsi : ss[i]? = some si) (hsk : ss[k]? = some sk)
    (hid : sk.id = si.id) :
    report.length = ss.length
  ∧ (foldRecords f ps (ss.map initStat) rs)[i]? = some (initStat si)
  ∧ (∃ e ∈ report, e.seller_id = si.id ∧ e.name = si.first_name ++ " " ++ si.last_name
      ∧ e.revenue = 0 ∧ e.profit = 0 ∧ e.sales_count = 0 ∧ e.top_products = [])
  ∧ ∃ m sm, lastIdxOf si.id (ss.map (fun s => s.id)) = some m
      ∧ k ≤ m
      ∧ ss[m]? = some sm ∧ sm.id = si.id
      ∧ (∀ r : PurchaseRecord, r.seller_id = si.id →
          lastIdxOf r.seller_id (ss.map (fun s => s.id)) = some m)
      ∧ (foldRecords f ps (ss.map initStat) rs)[m]? = some
          ((rs.filter (fun r =>
              decide (lastIdxOf r.seller_id (ss.map (fun s => s.id)) = some m))).foldl
            (fun t r => processRecord f ps r t) (initStat sm)) := by
  have hrep := analyzeSalesData_ok_elim hs hp hr hf hg h
  subst hrep
  have hidsk : (ss.map (fun s => s.id))[k]? = some si.id := by
    rw [List.getElem?_map, hsk]
    simp [hid]
  have hidsi : (ss.map (fun s => s.id))[i]? = some si.id := by
    rw [List.getElem?_map, hsi]
    rfl
  rcases hlast : lastIdxOf si.id (ss.map (fun s => s.id)) with _ | m
  · exact absurd (List.getElem?_mem hidsk) (lastIdxOf_eq_none hlast)
  have hkm : k ≤ m := lastIdxOf_ge hlast hidsk
  have hmlt : m < ss.length := by
    have hlt := lastIdxOf_lt hlast
    simpa using hlt
  have hsm : ∃ sm, ss[m]? = some sm := ⟨ss[m], List.getElem?_eq_getElem hmlt⟩
  rcases hsm with ⟨sm, hsm⟩
  have hsmid : sm.id = si.id := by
    have h1 := lastIdxOf_getElem? hlast
    rw [List.getElem?_map, hsm] at h1
    exact Option.some.inj h1
  have hfilteri : rs.filter (fun r =>
      decide (lastIdxOf r.seller_id ((ss.map initStat).map (fun t => t.id)) = some i))
      = [] := by
    apply List.filter_eq_nil_iff.mpr
    intro r hrmem
    simp only [decide_eq_true_eq, initStats_map_id]
    intro hcontra
    have h1 : (ss.map (fun s => s.id))[i]? = some r.seller_id :=
      lastIdxOf_getElem? hcontra
    rw [hidsi] at h1
    have h2 : r.seller_id = si.id := (Option.some.inj h1).symm
    rw [h2] at hcontra
    rw [hlast] at hcontra
    have h3 : m = i := Option.some.inj hcontra
    omega
  have hfoldi : (foldRecords f ps (ss.map initStat) rs)[i]? = some (initStat si) := by
    rw [foldRecords_getElem?, hfilteri]
    rw [List.getElem?_map, hsi]
    rfl
  have hzero : ∃ e ∈ runPipeline f g ss ps rs, e.seller_id = si.id
      ∧ e.name = si.first_name ++ " " ++ si.last_name
      ∧ e.revenue = 0 ∧ e.profit = 0 ∧ e.sales_count = 0 ∧ e.top_products = [] := by
    have hmem2 : initStat si ∈ sortByProfitDesc (foldRecords f ps (ss.map initStat) rs) := by
      unfold sortByProfitDesc
      exact mem_sortDescBy.mpr (List.getElem?_mem hfoldi)
    rcases List.getElem?_of_mem hmem2 with ⟨idx, hidx⟩
    have hrepidx : (runPipeline f g ss ps rs)[idx]? = some (projectSeller
        { stat := initStat si
          bonus := g idx (sortByProfitDesc (foldRecords f ps (ss.map initStat) rs)).length
            (initStat si)
          top_products := topProducts (initStat si).products_sold }) := by
      rw [runPipeline_getElem?, hidx]
      rfl
    exact ⟨_, List.getElem?_mem hrepidx, rfl, rfl, round2_zero, round2_zero, rfl, rfl⟩
  refine ⟨runPipeline_length f g ss ps rs, hfoldi, hzero, m, sm, hlast, hkm, hsm, hsmid,
    ?_, ?_⟩
  · intro r hrid
    rw [hrid]
    exact hlast
  · rw [foldRecords_getElem?, initStats_map_id]
    rw [List.getElem?_map, hsm]
    rfl

/-- Witness for C10: the duplicate-seller run with `seller0` at index 0
and `seller0b` at index 1, both with identifier `s1`. -/
theorem C10_duplicate_seller_witness :
    [reportEntryDup0, reportEntryDup1].length = [seller0, seller0b].length
  ∧ (foldRecords calculateSimpleRevenue [product0]
      ([seller0, seller0b].map initStat) [record0])[0]? = some (initStat seller0)
  ∧ (∃ e ∈ [reportEntryDup0, reportEntryDup1], e.seller_id = seller0.id
      ∧ e.name = seller0.first_name ++ " " ++ seller0.last_name
      ∧ e.revenue = 0 ∧ e.profit = 0 ∧ e.sales_count = 0 ∧ e.top_products = [])
  ∧ ∃ m sm, lastIdxOf seller0.id ([seller0, seller0b].map (fun s => s.id)) = some m
      ∧ 1 ≤ m
      ∧ [seller0, seller0b][m]? = some sm ∧ sm.id = seller0.id
      ∧ (∀ r : PurchaseRecord, r.seller_id = seller0.id →
          lastIdxOf r.seller_id ([seller0, seller0b].map (fun s => s.id)) = some m)
      ∧ (foldRecords calculateSimpleRevenue [product0]
          ([seller0, seller0b].map initStat) [record0])[m]? = some
          (([record0].filter (fun r =>
              decide (lastIdxOf r.seller_id ([seller0, seller0b].map (fun s => s.id))
                = some m))).foldl
            (fun t r => processRecord calculateSimpleRevenue [product0] r t)
            (initStat sm)) :=
  C10_duplicate_seller_ids (mkData [seller0, seller0b] [product0] [record0]) defaultOpts
    [seller0, seller0b] [product0] [record0] calculateSimpleRevenue calculateBonusByProfit
    [reportEntryDup0, reportEntryDup1] rfl rfl rfl rfl rfl exampleRunDup_eq
    0 1 seller0 seller0b (by omega) rfl rfl rfl
